import Mathlib

/-!
Shallow embedding of the `weld` linker's ELF64 codec, linker driver and
thread pool, with theorems checking the specification's claims against it.

Bytes are modelled as `Nat` (each produced byte is `< 256` by construction);
parser results mirror `nom`: a successful read returns the remaining input
paired with the value, a parse failure is `none`.  Rust panics (out-of-bounds
slicing, failed assertions) are modelled by explicit outcome constructors.
-/

namespace Weld

/-- The endian strategy, i.e. the `N : Number` type parameter of the codec
(`LittleEndian` / `BigEndian` in `crates/object/src/endianness.rs`). -/
inductive Endian
  | little
  | big
deriving DecidableEq

/-- Little-endian byte representation of `n` on `w` bytes
(`u{8,16,32,64}::to_le_bytes`). -/
def leBytes : Nat → Nat → List Nat
  | 0, _ => []
  | w + 1, n => n % 256 :: leBytes w (n / 256)

/-- The `N::write_u{8,16,32,64}` primitive: encode `n` on `w` bytes in the
endian order selected by `e` (`to_le_bytes` / `to_be_bytes`). -/
def writeBytes (e : Endian) (w n : Nat) : List Nat :=
  match e with
  | .little => leBytes w n
  | .big => (leBytes w n).reverse

/-- Value of a little-endian byte list. -/
def leVal : List Nat → Nat
  | [] => 0
  | b :: r => b + 256 * leVal r

/-- Value of a big-endian byte list. -/
def beVal (l : List Nat) : Nat := l.foldl (fun acc b => acc * 256 + b) 0

/-- Value of a byte list under the endian strategy `e`. -/
def bytesVal (e : Endian) (l : List Nat) : Nat :=
  match e with
  | .little => leVal l
  | .big => beVal l

/-- The `N::read_u{8,16,32,64}` primitive (`nom`'s `le_uN` / `be_uN`):
consume exactly `w` bytes from the head of the input and return the value
with the remaining input, or fail if fewer than `w` bytes remain. -/
def readBytes (e : Endian) (w : Nat) (input : List Nat) : Option (List Nat × Nat) :=
  if w ≤ input.length then some (input.drop w, bytesVal e (input.take w)) else none

/-- The `u64::is_power_of_two` primitive, specialised to values below `2^64`
(every power of two representable in a `u64` is `2 ^ k` with `k < 64`). -/
def isPowerOfTwoU64 (n : Nat) : Bool :=
  (List.range 64).any fun k => n == 2 ^ k

/-! Enumerated discriminant types of `crates/object/src/elf64`.  Each has the
discriminant table of its `ReadWrite` derive (or its hand-written `Read` /
`Write` implementation for `SymbolBinding` and `SymbolType`):
`code` is the emitted discriminant, `ofCode` the decoding match. -/

/-- Byte order of the file (`elf64::Endianness`, `#[repr(u8)]`). -/
inductive Endianness
  | Little
  | Big
deriving DecidableEq

def Endianness.code : Endianness → Nat
  | .Little => 0x01
  | .Big => 0x02

def Endianness.ofCode : Nat → Option Endianness
  | 0x01 => some .Little
  | 0x02 => some .Big
  | _ => none

def Endianness.read (e : Endian) (input : List Nat) : Option (List Nat × Endianness) :=
  match readBytes e 1 input with
  | some (rest, d) =>
    match Endianness.ofCode d with
    | some v => some (rest, v)
    | none => none
  | none => none

def Endianness.write (e : Endian) (v : Endianness) : List Nat :=
  writeBytes e 1 v.code

/-- The codec strategy selected by a decoded `Endianness`
(the `Into<crate::Endianness>` impl). -/
def Endianness.codec : Endianness → Endian
  | .Little => .little
  | .Big => .big

/-- Elf version (`elf64::Version`, `#[repr(u8)]`). -/
inductive Version
  | None
  | Current
deriving DecidableEq

def Version.code : Version → Nat
  | .None => 0x00
  | .Current => 0x01

def Version.ofCode : Nat → Option Version
  | 0x00 => some .None
  | 0x01 => some .Current
  | _ => none

def Version.read (e : Endian) (input : List Nat) : Option (List Nat × Version) :=
  match readBytes e 1 input with
  | some (rest, d) =>
    match Version.ofCode d with
    | some v => some (rest, v)
    | none => none
  | none => none

def Version.write (e : Endian) (v : Version) : List Nat :=
  writeBytes e 1 v.code

/-- OS ABI (`elf64::OsAbi`, `#[repr(u8)]`). -/
inductive OsAbi
  | SystemV | HpUx | NetBsd | Gnu | GnuHurd | Solaris | Aix | Irix | FreeBsd
  | Tru64 | Modesto | OpenBsd | OpenVms | Nsk | Aros | FenixOs | CloudAbi
  | OpenVos | ArmAeabi | Arm | Standalone
deriving DecidableEq

def OsAbi.code : OsAbi → Nat
  | .SystemV => 0x00
  | .HpUx => 0x01
  | .NetBsd => 0x02
  | .Gnu => 0x03
  | .GnuHurd => 0x04
  | .Solaris => 0x06
  | .Aix => 0x07
  | .Irix => 0x08
  | .FreeBsd => 0x09
  | .Tru64 => 0x0a
  | .Modesto => 0x0b
  | .OpenBsd => 0x0c
  | .OpenVms => 0x0d
  | .Nsk => 0x0e
  | .Aros => 0x0f
  | .FenixOs => 0x10
  | .CloudAbi => 0x11
  | .OpenVos => 0x12
  | .ArmAeabi => 0x40
  | .Arm => 0x61
  | .Standalone => 0xff

def OsAbi.ofCode : Nat → Option OsAbi
  | 0x00 => some .SystemV
  | 0x01 => some .HpUx
  | 0x02 => some .NetBsd
  | 0x03 => some .Gnu
  | 0x04 => some .GnuHurd
  | 0x06 => some .Solaris
  | 0x07 => some .Aix
  | 0x08 => some .Irix
  | 0x09 => some .FreeBsd
  | 0x0a => some .Tru64
  | 0x0b => some .Modesto
  | 0x0c => some .OpenBsd
  | 0x0d => some .OpenVms
  | 0x0e => some .Nsk
  | 0x0f => some .Aros
  | 0x10 => some .FenixOs
  | 0x11 => some .CloudAbi
  | 0x12 => some .OpenVos
  | 0x40 => some .ArmAeabi
  | 0x61 => some .Arm
  | 0xff => some .Standalone
  | _ => none

def OsAbi.read (e : Endian) (input : List Nat) : Option (List Nat × OsAbi) :=
  match readBytes e 1 input with
  | some (rest, d) =>
    match OsAbi.ofCode d with
    | some v => some (rest, v)
    | none => none
  | none => none

def OsAbi.write (e : Endian) (v : OsAbi) : List Nat :=
  writeBytes e 1 v.code

/-- Type of the file (`elf64::FileType`, `#[repr(u16)]`). -/
inductive FileType
  | None
  | RelocatableFile
  | ExecutableFile
  | SharedObject
  | CoreFile
deriving DecidableEq

def FileType.code : FileType → Nat
  | .None => 0x00
  | .RelocatableFile => 0x01
  | .ExecutableFile => 0x02
  | .SharedObject => 0x03
  | .CoreFile => 0x04

def FileType.ofCode : Nat → Option FileType
  | 0x00 => some .None
  | 0x01 => some .RelocatableFile
  | 0x02 => some .ExecutableFile
  | 0x03 => some .SharedObject
  | 0x04 => some .CoreFile
  | _ => none

def FileType.read (e : Endian) (input : List Nat) : Option (List Nat × FileType) :=
  match readBytes e 2 input with
  | some (rest, d) =>
    match FileType.ofCode d with
    | some v => some (rest, v)
    | none => none
  | none => none

def FileType.write (e : Endian) (v : FileType) : List Nat :=
  writeBytes e 2 v.code

/-- Architecture (`elf64::Machine`, `#[repr(u16)]`). -/
inductive Machine
  | None | Att32 | Sparc | X86 | Motorola68k | Motorola88k | IntelMcu
  | Intel860 | Mips | IbmS370 | MipsRs3Le | HpPaRisc | FujitsuVpp500
  | Sparc32Plus | Intel960 | PowerPc | PowerPc64 | IbmS390 | IbmSpu
  | NecV800 | FujitsuFr20 | TrwRh32 | MotorolaRce | Arm | DigitalAlpha
  | HitachiSuperH | SparcV9 | SiemensTricore | ArgonautRiscCore
  | HitachiH8300 | HitachiH8_300H | HitachiH8S | HitachiH8_500 | IntelA64
  | MipsX | MotorolaColdfire | MotorolaM68Hc12 | FujitsuMma | SiemensPcp
  | SonuNcpu | DensoNdr1 | MotorolaStarCore | ToyotaMe16 | St100 | TinyJ
  | X86_64 | SonyDSP | Pdp10 | Pdp11 | SiemensFx66 | St9Plus | St7
  | Motorola68Hc16 | Motorola68Hc11 | Motorola68Hc08 | Motorola68Hc05
  | Svx | St19 | Vax | Cris | Javelin | FirePath | Zsp | TiC6000
  | McstElbrus | Aarch64 | RiscV | Bpf
deriving DecidableEq

def Machine.code : Machine → Nat
  | .None => 0x00
  | .Att32 => 0x01
  | .Sparc => 0x02
  | .X86 => 0x03
  | .Motorola68k => 0x04
  | .Motorola88k => 0x05
  | .IntelMcu => 0x06
  | .Intel860 => 0x07
  | .Mips => 0x08
  | .IbmS370 => 0x09
  | .MipsRs3Le => 0x0a
  | .HpPaRisc => 0x0e
  | .FujitsuVpp500 => 0x11
  | .Sparc32Plus => 0x12
  | .Intel960 => 0x13
  | .PowerPc => 0x14
  | .PowerPc64 => 0x15
  | .IbmS390 => 0x16
  | .IbmSpu => 0x17
  | .NecV800 => 0x24
  | .FujitsuFr20 => 0x25
  | .TrwRh32 => 0x26
  | .MotorolaRce => 0x27
  | .Arm => 0x28
  | .DigitalAlpha => 0x29
  | .HitachiSuperH => 0x2a
  | .SparcV9 => 0x2b
  | .SiemensTricore => 0x2c
  | .ArgonautRiscCore => 0x2d
  | .HitachiH8300 => 0x2e
  | .HitachiH8_300H => 0x2f
  | .HitachiH8S => 0x30
  | .HitachiH8_500 => 0x31
  | .IntelA64 => 0x32
  | .MipsX => 0x33
  | .MotorolaColdfire => 0x34
  | .MotorolaM68Hc12 => 0x35
  | .FujitsuMma => 0x36
  | .SiemensPcp => 0x37
  | .SonuNcpu => 0x38
  | .DensoNdr1 => 0x39
  | .MotorolaStarCore => 0x3a
  | .ToyotaMe16 => 0x3b
  | .St100 => 0x3c
  | .TinyJ => 0x3d
  | .X86_64 => 0x3e
  | .SonyDSP => 0x3f
  | .Pdp10 => 0x40
  | .Pdp11 => 0x41
  | .SiemensFx66 => 0x42
  | .St9Plus => 0x43
  | .St7 => 0x44
  | .Motorola68Hc16 => 0x45
  | .Motorola68Hc11 => 0x46
  | .Motorola68Hc08 => 0x47
  | .Motorola68Hc05 => 0x48
  | .Svx => 0x49
  | .St19 => 0x4a
  | .Vax => 0x4b
  | .Cris => 0x4c
  | .Javelin => 0x4d
  | .FirePath => 0x4e
  | .Zsp => 0x4f
  | .TiC6000 => 0x8c
  | .McstElbrus => 0xaf
  | .Aarch64 => 0xb7
  | .RiscV => 0xf3
  | .Bpf => 0xf7

def Machine.ofCode : Nat → Option Machine
  | 0x00 => some .None
  | 0x01 => some .Att32
  | 0x02 => some .Sparc
  | 0x03 => some .X86
  | 0x04 => some .Motorola68k
  | 0x05 => some .Motorola88k
  | 0x06 => some .IntelMcu
  | 0x07 => some .Intel860
  | 0x08 => some .Mips
  | 0x09 => some .IbmS370
  | 0x0a => some .MipsRs3Le
  | 0x0e => some .HpPaRisc
  | 0x11 => some .FujitsuVpp500
  | 0x12 => some .Sparc32Plus
  | 0x13 => some .Intel960
  | 0x14 => some .PowerPc
  | 0x15 => some .PowerPc64
  | 0x16 => some .IbmS390
  | 0x17 => some .IbmSpu
  | 0x24 => some .NecV800
  | 0x25 => some .FujitsuFr20
  | 0x26 => some .TrwRh32
  | 0x27 => some .MotorolaRce
  | 0x28 => some .Arm
  | 0x29 => some .DigitalAlpha
  | 0x2a => some .HitachiSuperH
  | 0x2b => some .SparcV9
  | 0x2c => some .SiemensTricore
  | 0x2d => some .ArgonautRiscCore
  | 0x2e => some .HitachiH8300
  | 0x2f => some .HitachiH8_300H
  | 0x30 => some .HitachiH8S
  | 0x31 => some .HitachiH8_500
  | 0x32 => some .IntelA64
  | 0x33 => some .MipsX
  | 0x34 => some .MotorolaColdfire
  | 0x35 => some .MotorolaM68Hc12
  | 0x36 => some .FujitsuMma
  | 0x37 => some .SiemensPcp
  | 0x38 => some .SonuNcpu
  | 0x39 => some .DensoNdr1
  | 0x3a => some .MotorolaStarCore
  | 0x3b => some .ToyotaMe16
  | 0x3c => some .St100
  | 0x3d => some .TinyJ
  | 0x3e => some .X86_64
  | 0x3f => some .SonyDSP
  | 0x40 => some .Pdp10
  | 0x41 => some .Pdp11
  | 0x42 => some .SiemensFx66
  | 0x43 => some .St9Plus
  | 0x44 => some .St7
  | 0x45 => some .Motorola68Hc16
  | 0x46 => some .Motorola68Hc11
  | 0x47 => some .Motorola68Hc08
  | 0x48 => some .Motorola68Hc05
  | 0x49 => some .Svx
  | 0x4a => some .St19
  | 0x4b => some .Vax
  | 0x4c => some .Cris
  | 0x4d => some .Javelin
  | 0x4e => some .FirePath
  | 0x4f => some .Zsp
  | 0x8c => some .TiC6000
  | 0xaf => some .McstElbrus
  | 0xb7 => some .Aarch64
  | 0xf3 => some .RiscV
  | 0xf7 => some .Bpf
  | _ => none

def Machine.read (e : Endian) (input : List Nat) : Option (List Nat × Machine) :=
  match readBytes e 2 input with
  | some (rest, d) =>
    match Machine.ofCode d with
    | some v => some (rest, v)
    | none => none
  | none => none

def Machine.write (e : Endian) (v : Machine) : List Nat :=
  writeBytes e 2 v.code

/-- Type of program (`elf64::ProgramType`, `#[repr(u32)]`). -/
inductive ProgramType
  | Null
  | Load
  | Dynamic
  | Interpreter
  | Note
  | Shlib
  | ProgramHeader
  | ThreadLocalStorage
deriving DecidableEq

def ProgramType.code : ProgramType → Nat
  | .Null => 0x00
  | .Load => 0x01
  | .Dynamic => 0x02
  | .Interpreter => 0x03
  | .Note => 0x04
  | .Shlib => 0x05
  | .ProgramHeader => 0x06
  | .ThreadLocalStorage => 0x07

def ProgramType.ofCode : Nat → Option ProgramType
  | 0x00 => some .Null
  | 0x01 => some .Load
  | 0x02 => some .Dynamic
  | 0x03 => some .Interpreter
  | 0x04 => some .Note
  | 0x05 => some .Shlib
  | 0x06 => some .ProgramHeader
  | 0x07 => some .ThreadLocalStorage
  | _ => none

def ProgramType.read (e : Endian) (input : List Nat) : Option (List Nat × ProgramType) :=
  match readBytes e 4 input with
  | some (rest, d) =>
    match ProgramType.ofCode d with
    | some v => some (rest, v)
    | none => none
  | none => none

def ProgramType.write (e : Endian) (v : ProgramType) : List Nat :=
  writeBytes e 4 v.code

/-- A symbol binding (`elf64::SymbolBinding`). -/
inductive SymbolBinding
  | Local
  | Global
  | Weak
  | LowEnvironmentSpecific
  | HighEnvironmentSpecific
  | LowProcessorSpecific
  | HighProcessorSpecific
deriving DecidableEq

/-- The discriminant emitted for a binding by `Symbol::write`. -/
def SymbolBinding.code : SymbolBinding → Nat
  | .Local => 0x00
  | .Global => 0x01
  | .Weak => 0x02
  | .LowEnvironmentSpecific => 0x0a
  | .HighEnvironmentSpecific => 0x0c
  | .LowProcessorSpecific => 0x0d
  | .HighProcessorSpecific => 0x0f

/-- The decoding table of `SymbolBinding::read`, applied to the high nibble.
Transcribed verbatim from the source: `0x0c` maps to `HighProcessorSpecific`
and `0x0d` maps to `LowEnvironmentSpecific` there, even though the enum
declares `HighEnvironmentSpecific = 0x0c` and `LowProcessorSpecific = 0x0d`. -/
def SymbolBinding.ofCode : Nat → Option SymbolBinding
  | 0x00 => some .Local
  | 0x01 => some .Global
  | 0x02 => some .Weak
  | 0x0a => some .LowEnvironmentSpecific
  | 0x0c => some .HighProcessorSpecific
  | 0x0d => some .LowEnvironmentSpecific
  | 0x0f => some .HighProcessorSpecific
  | _ => none

/-- The packed binding/type byte as emitted by `Symbol::write` with the type
nibble zero: `(binding << 4) | (r#type & 0x0f)`.  This is the encoding of a
binding alone (the unit test drives `SymbolBinding::read` with exactly
`discriminant << 4`). -/
def SymbolBinding.write (e : Endian) (v : SymbolBinding) : List Nat :=
  writeBytes e 1 (v.code * 16)

/-- The hand-written `SymbolBinding::read`: peeks one byte, decodes the HIGH
nibble, and returns the ORIGINAL input (the byte is not consumed; the shared
byte is consumed later by `SymbolType::read`). -/
def SymbolBinding.read (e : Endian) (input : List Nat) : Option (List Nat × SymbolBinding) :=
  match readBytes e 1 input with
  | some (_, b) =>
    match SymbolBinding.ofCode (b / 16) with
    | some v => some (input, v)
    | none => none
  | none => none

/-- A symbol type (`elf64::SymbolType`). -/
inductive SymbolType
  | NoType
  | Object
  | Function
  | Section
  | File
  | LowEnvironmentSpecific
  | HighEnvironmentSpecific
  | LowProcessorSpecific
  | HighProcessorSpecific
deriving DecidableEq

/-- The discriminant emitted for a symbol type by `Symbol::write`. -/
def SymbolType.code : SymbolType → Nat
  | .NoType => 0x00
  | .Object => 0x01
  | .Function => 0x02
  | .Section => 0x03
  | .File => 0x04
  | .LowEnvironmentSpecific => 0x0a
  | .HighEnvironmentSpecific => 0x0c
  | .LowProcessorSpecific => 0x0d
  | .HighProcessorSpecific => 0x0f

/-- The decoding table of `SymbolType::read`, applied to the low nibble.
Transcribed verbatim from the source: `0x0c` maps to `HighProcessorSpecific`
and `0x0d` maps to `LowEnvironmentSpecific` there, even though the enum
declares `HighEnvironmentSpecific = 0x0c` and `LowProcessorSpecific = 0x0d`. -/
def SymbolType.ofCode : Nat → Option SymbolType
  | 0x00 => some .NoType
  | 0x01 => some .Object
  | 0x02 => some .Function
  | 0x03 => some .Section
  | 0x04 => some .File
  | 0x0a => some .LowEnvironmentSpecific
  | 0x0c => some .HighProcessorSpecific
  | 0x0d => some .LowEnvironmentSpecific
  | 0x0f => some .HighProcessorSpecific
  | _ => none

/-- The packed binding/type byte as emitted by `Symbol::write` with the
binding nibble zero: the encoding of a symbol type alone. -/
def SymbolType.write (e : Endian) (v : SymbolType) : List Nat :=
  writeBytes e 1 (v.code % 16)

/-- The hand-written `SymbolType::read`: consumes one byte and decodes the
LOW nibble. -/
def SymbolType.read (e : Endian) (input : List Nat) : Option (List Nat × SymbolType) :=
  match readBytes e 1 input with
  | some (rest, b) =>
    match SymbolType.ofCode (b % 16) with
    | some v => some (rest, v)
    | none => none
  | none => none

/-- An alignment value (`elf64::Alignment`): either none (encoded as zero) or
a non-zero power of two in a `u64`. -/
abbrev Alignment := Option Nat

/-- The hand-written `Alignment::read`: decode a `u64`; zero is no alignment,
any non-zero non-power-of-two value is a parse error. -/
def Alignment.read (e : Endian) (input : List Nat) : Option (List Nat × Alignment) :=
  match readBytes e 8 input with
  | some (rest, alignment) =>
    if alignment ≠ 0 then
      if isPowerOfTwoU64 alignment then some (rest, some alignment) else none
    else
      some (rest, none)
  | none => none

/-- The hand-written `Alignment::write`: encode the value, or zero for none. -/
def Alignment.write (e : Endian) (a : Alignment) : List Nat :=
  writeBytes e 8 (a.getD 0)

/-- Section type (`elf64::SectionType`, `#[repr(u32)]`). -/
inductive SectionType
  | Null | ProgramData | SymbolTable | StringTable | RelocationWithAddends
  | SymbolHashTable | DynamicLinkingTable | Note | NoBits | Relocation
  | Shlib | DynamicLoaderSymbolTable | ArrayOfConstructors
  | ArrayOfDestructors | ArrayOfPreConstructors | Group
  | ExtendedSectionIndices | NumberOfDefinedTypes | LowEnvironmentSpecific
  | HighEnvironmentSpecific | LowProcessorSpecific | HighProcessorSpecific
deriving DecidableEq

def SectionType.code : SectionType → Nat
  | .Null => 0x00
  | .ProgramData => 0x01
  | .SymbolTable => 0x02
  | .StringTable => 0x03
  | .RelocationWithAddends => 0x04
  | .SymbolHashTable => 0x05
  | .DynamicLinkingTable => 0x06
  | .Note => 0x07
  | .NoBits => 0x08
  | .Relocation => 0x09
  | .Shlib => 0x0a
  | .DynamicLoaderSymbolTable => 0x0b
  | .ArrayOfConstructors => 0x0e
  | .ArrayOfDestructors => 0x0f
  | .ArrayOfPreConstructors => 0x10
  | .Group => 0x11
  | .ExtendedSectionIndices => 0x12
  | .NumberOfDefinedTypes => 0x13
  | .LowEnvironmentSpecific => 0x60000000
  | .HighEnvironmentSpecific => 0x6fffffff
  | .LowProcessorSpecific => 0x70000000
  | .HighProcessorSpecific => 0x7fffffff

def SectionType.ofCode : Nat → Option SectionType
  | 0x00 => some .Null
  | 0x01 => some .ProgramData
  | 0x02 => some .SymbolTable
  | 0x03 => some .StringTable
  | 0x04 => some .RelocationWithAddends
  | 0x05 => some .SymbolHashTable
  | 0x06 => some .DynamicLinkingTable
  | 0x07 => some .Note
  | 0x08 => some .NoBits
  | 0x09 => some .Relocation
  | 0x0a => some .Shlib
  | 0x0b => some .DynamicLoaderSymbolTable
  | 0x0e => some .ArrayOfConstructors
  | 0x0f => some .ArrayOfDestructors
  | 0x10 => some .ArrayOfPreConstructors
  | 0x11 => some .Group
  | 0x12 => some .ExtendedSectionIndices
  | 0x13 => some .NumberOfDefinedTypes
  | 0x60000000 => some .LowEnvironmentSpecific
  | 0x6fffffff => some .HighEnvironmentSpecific
  | 0x70000000 => some .LowProcessorSpecific
  | 0x7fffffff => some .HighProcessorSpecific
  | _ => none

def SectionType.read (e : Endian) (input : List Nat) : Option (List Nat × SectionType) :=
  match readBytes e 4 input with
  | some (rest, d) =>
    match SectionType.ofCode d with
    | some v => some (rest, v)
    | none => none
  | none => none

def SectionType.write (e : Endian) (v : SectionType) : List Nat :=
  writeBytes e 4 v.code

/-- Section index (`elf64::SectionIndex`): a plain index or a reserved name. -/
inductive SectionIndex
  | Ok (index : Nat)
  | Undefined
  | LowProcessorSpecific
  | HighProcessorSpecific
  | LowEnvironmentSpecific
  | HighEnvironmentSpecific
  | Absolute
  | Common
deriving DecidableEq

/-- The shared decoding table `SectionIndex::_read` (always succeeds,
unreserved values become plain indices). -/
def SectionIndex.ofCode (index : Nat) : SectionIndex :=
  match index with
  | 0x0000 => .Undefined
  | 0xff00 => .LowProcessorSpecific
  | 0xff1f => .HighProcessorSpecific
  | 0xff20 => .LowEnvironmentSpecific
  | 0xff3f => .HighEnvironmentSpecific
  | 0xfff1 => .Absolute
  | 0xfff2 => .Common
  | index => .Ok index

def SectionIndex.code : SectionIndex → Nat
  | .Undefined => 0x0000
  | .LowProcessorSpecific => 0xff00
  | .HighProcessorSpecific => 0xff1f
  | .LowEnvironmentSpecific => 0xff20
  | .HighEnvironmentSpecific => 0xff3f
  | .Absolute => 0xfff1
  | .Common => 0xfff2
  | .Ok index => index

/-- `<SectionIndex as Read<u16>>::read`. -/
def SectionIndex.read16 (e : Endian) (input : List Nat) : Option (List Nat × SectionIndex) :=
  match readBytes e 2 input with
  | some (rest, index) => some (rest, SectionIndex.ofCode index)
  | none => none

/-- `<SectionIndex as Read<u32>>::read`. -/
def SectionIndex.read32 (e : Endian) (input : List Nat) : Option (List Nat × SectionIndex) :=
  match readBytes e 4 input with
  | some (rest, index) => some (rest, SectionIndex.ofCode index)
  | none => none

/-- `<SectionIndex as Write<u16>>::write`. -/
def SectionIndex.write16 (e : Endian) (v : SectionIndex) : List Nat :=
  writeBytes e 2 v.code

/-- `SectionFlags::from_bits` over the declared flag set
{`Writable`=0x01, `Allocable`=0x02, `Executable`=0x04, `Merge`=0x10,
`Strings`=0x20, `InfoLink`=0x40, `LinkOrder`=0x80, `OsNonConforming`=0x100,
`IsPartOfAGroup`=0x200, `HasThreadLocalData`=0x400}: a `u64` mask is accepted
exactly when every set bit is declared, i.e. when the mask is below `0x800`
and bit 3 (`0x8`, the only undeclared low bit) is clear. -/
def SectionFlags.from_bits (flags : Nat) : Option Nat :=
  if flags < 0x800 ∧ flags / 8 % 2 = 0 then some flags else none

/-- `<SectionFlags as Read>::read`: a `u64` whose unknown bits are rejected. -/
def SectionFlags.read (e : Endian) (input : List Nat) : Option (List Nat × Nat) :=
  match readBytes e 8 input with
  | some (rest, flags) =>
    match SectionFlags.from_bits flags with
    | some flags => some (rest, flags)
    | none => none
  | none => none

/-- `ProgramFlags::from_bits` over {`Execute`=0x1, `Write`=0x2, `Read`=0x4}:
a `u32` mask is accepted exactly when it is below `0x8`. -/
def ProgramFlags.from_bits (flags : Nat) : Option Nat :=
  if flags < 8 then some flags else none

/-- `<ProgramFlags as Read>::read`. -/
def ProgramFlags.read (e : Endian) (input : List Nat) : Option (List Nat × Nat) :=
  match readBytes e 4 input with
  | some (rest, flags) =>
    match ProgramFlags.from_bits flags with
    | some flags => some (rest, flags)
    | none => none
  | none => none

/-- The type of `Data` (`elf64::DataType`). -/
inductive DataType
  | StringTable
  | SymbolTable
  | ProgramData
  | Unspecified
deriving DecidableEq

/-- The `From<SectionType> for DataType` impl. -/
def DataType.ofSectionType : SectionType → DataType
  | .StringTable => .StringTable
  | .SymbolTable => .SymbolTable
  | .ProgramData => .ProgramData
  | _ => .Unspecified

/-- `Data` wraps a byte range with a type tag (`elf64::Data`).  The borrowed
versus owned distinction of `Cow` is irrelevant to the values. -/
structure Data where
  inner : List Nat
  type : DataType
  endianness : Endian
  entity_size : Option Nat
deriving DecidableEq

/-- `Data::string_at_offset`: only for string tables; the bytes from `offset`
up to (but not including) the first zero byte, absence if the offset is out
of range or no terminator follows. -/
def Data.string_at_offset (d : Data) (offset : Nat) : Option (List Nat) :=
  if d.type ≠ DataType.StringTable then none
  else if d.inner.length ≤ offset then none
  else
    let name := d.inner.drop offset
    (name.findIdx? (fun c => c == 0)).map fun name_end => name.take name_end

/-- The fields of a section header as decoded by the `tuple((...))` parser
inside `Section::read`, before the data view is sliced out of the file.
`entity_size` is the raw `u64` (zero meaning none). -/
structure SectionHeader where
  name_offset : Nat
  type : SectionType
  flags : Nat
  virtual_address : Nat
  offset : Nat
  segment_size_in_file_image : Nat
  link : SectionIndex
  information : Nat
  alignment : Alignment
  entity_size : Nat
deriving DecidableEq

/-- The field-decoding stage of `Section::read` (its `tuple((...))(input)?`
call, in source order). -/
def Section.readFields (e : Endian) (input : List Nat) : Option (List Nat × SectionHeader) := do
  let (input, name_offset) ← readBytes e 4 input
  let (input, type) ← SectionType.read e input
  let (input, flags) ← SectionFlags.read e input
  let (input, virtual_address) ← readBytes e 8 input
  let (input, offset) ← readBytes e 8 input
  let (input, segment_size_in_file_image) ← readBytes e 8 input
  let (input, link) ← SectionIndex.read32 e input
  let (input, information) ← readBytes e 4 input
  let (input, alignment) ← Alignment.read e input
  let (input, entity_size) ← readBytes e 8 input
  pure (input, { name_offset, type, flags, virtual_address, offset,
                 segment_size_in_file_image, link, information, alignment,
                 entity_size })

/-- Section header (`elf64::Section`). -/
structure Section where
  name : Option (List Nat)
  name_offset : Nat
  type : SectionType
  flags : Nat
  virtual_address : Nat
  offset : Nat
  segment_size_in_file_image : Nat
  link : SectionIndex
  information : Nat
  alignment : Alignment
  entity_size : Option Nat
  data : Data
deriving DecidableEq

/-- The struct literal built at the end of `Section::read`: decoded fields
plus the data view `d` sliced from the backing file. -/
def Section.ofHeader (e : Endian) (h : SectionHeader) (d : List Nat) : Section :=
  { name := none
    name_offset := h.name_offset
    type := h.type
    flags := h.flags
    virtual_address := h.virtual_address
    offset := h.offset
    segment_size_in_file_image := h.segment_size_in_file_image
    link := h.link
    information := h.information
    alignment := h.alignment
    entity_size := if h.entity_size ≠ 0 then some h.entity_size else none
    data := { inner := d
              type := DataType.ofSectionType h.type
              endianness := e
              entity_size := if h.entity_size ≠ 0 then some h.entity_size else none } }

/-- Outcome of a read that may also panic: Rust's `&file[offset..][..size]`
slicing aborts (it does not return a parse error) when the range exceeds the
backing slice. -/
inductive ReadResult (α : Type)
  | ok (rest : List Nat) (value : α)
  | err
  | panicked
deriving DecidableEq

/-- `Section::read`: decode the header fields, then take the data view
`&file[offset..][..segment_size_in_file_image]`; the slice is in bounds
exactly when `offset + segment_size_in_file_image ≤ file.length`, otherwise
the indexing panics. -/
def Section.read (e : Endian) (input file : List Nat) : ReadResult Section :=
  match Section.readFields e input with
  | none => .err
  | some (rest, h) =>
    if h.offset + h.segment_size_in_file_image ≤ file.length then
      .ok rest (Section.ofHeader e h ((file.drop h.offset).take h.segment_size_in_file_image))
    else
      .panicked

/-- The fields of a program header as decoded by the tuple parser inside
`Program::read`, before the data view is sliced out of the file. -/
structure ProgramHeader where
  type : ProgramType
  segment_flags : Nat
  offset : Nat
  virtual_address : Nat
  physical_address : Option Nat
  segment_size_in_file_image : Nat
  segment_size_in_memory : Nat
  alignment : Alignment
deriving DecidableEq

/-- The field-decoding stage of `Program::read` (its tuple parser, in source
order).  `Option<Address>` decodes zero as absence. -/
def Program.readFields (e : Endian) (input : List Nat) : Option (List Nat × ProgramHeader) := do
  let (input, type) ← ProgramType.read e input
  let (input, segment_flags) ← ProgramFlags.read e input
  let (input, offset) ← readBytes e 8 input
  let (input, virtual_address) ← readBytes e 8 input
  let (input, physical_address) ← readBytes e 8 input
  let (input, segment_size_in_file_image) ← readBytes e 8 input
  let (input, segment_size_in_memory) ← readBytes e 8 input
  let (input, alignment) ← Alignment.read e input
  pure (input, { type, segment_flags, offset, virtual_address,
                 physical_address := if physical_address = 0 then none else some physical_address,
                 segment_size_in_file_image, segment_size_in_memory, alignment })

/-- Program (segment) header (`elf64::Program`). -/
structure Program where
  type : ProgramType
  segment_flags : Nat
  offset : Nat
  virtual_address : Nat
  physical_address : Option Nat
  segment_size_in_file_image : Nat
  segment_size_in_memory : Nat
  alignment : Alignment
  data : Data
deriving DecidableEq

/-- The struct literal built at the end of `Program::read`: decoded fields
plus the data view `d` sliced from the backing file, tagged `ProgramData`. -/
def Program.ofHeader (e : Endian) (h : ProgramHeader) (d : List Nat) : Program :=
  { type := h.type
    segment_flags := h.segment_flags
    offset := h.offset
    virtual_address := h.virtual_address
    physical_address := h.physical_address
    segment_size_in_file_image := h.segment_size_in_file_image
    segment_size_in_memory := h.segment_size_in_memory
    alignment := h.alignment
    data := { inner := d
              type := DataType.ProgramData
              endianness := e
              entity_size := none } }

/-- `Program::read`: decode the header fields, then take the data view
`&file[offset..][..segment_size_in_file_image]`, panicking on an
out-of-bounds range. -/
def Program.read (e : Endian) (input file : List Nat) : ReadResult Program :=
  match Program.readFields e input with
  | none => .err
  | some (rest, h) =>
    if h.offset + h.segment_size_in_file_image ≤ file.length then
      .ok rest (Program.ofHeader e h ((file.drop h.offset).take h.segment_size_in_file_image))
    else
      .panicked

/-- `<Program as Write>::write`, in source field order.  `Option<Address>`
writes zero for absence; `Alignment` writes zero for none. -/
def Program.write (e : Endian) (p : Program) : List Nat :=
  ProgramType.write e p.type
  ++ writeBytes e 4 p.segment_flags
  ++ writeBytes e 8 p.offset
  ++ writeBytes e 8 p.virtual_address
  ++ writeBytes e 8 (p.physical_address.getD 0)
  ++ writeBytes e 8 p.segment_size_in_file_image
  ++ writeBytes e 8 p.segment_size_in_memory
  ++ Alignment.write e p.alignment

/-- Object file (`elf64::File`). -/
structure File where
  endianness : Endianness
  version : Version
  os_abi : OsAbi
  type : FileType
  machine : Machine
  processor_flags : Nat
  entry_point : Option Nat
  programs : List Program
  sections : List Section
  section_index_for_section_names : SectionIndex
deriving DecidableEq

/-- `File::MAGIC`. -/
def File.MAGIC : List Nat := [0x7f, 0x45, 0x4c, 0x46]

/-- `File::ELF64`. -/
def File.ELF64 : List Nat := [0x02]

/-- `File::SIZE` (the file header is 64 bytes). -/
def File.SIZE : Nat := 64

/-- Modelled from the spec: `Program::SIZE` is referenced by the linker's
file builder but its definition is not under `src/`; the spec fixes the
program header entry size to 56 bytes. -/
def Program.SIZE : Nat := 56

/-- Modelled from the spec: `Section::SIZE` is referenced by the linker's
file builder but its definition is not under `src/`; the spec fixes the
section header entry size to 64 bytes. -/
def Section.SIZE : Nat := 64

/-- The closure applied to every section other than the name table by
`File::fetch_section_names`: copy the null-terminated name bytes found in the
name table at this section's `name_offset` into its `name` field. -/
def Section.fetchName (section_names : Section) (s : Section) : Section :=
  { s with name := section_names.data.string_at_offset s.name_offset }

/-- `File::fetch_section_names`: if `section_index_for_section_names` is a
plain index that is in range and denotes a `StringTable` section, resolve the
name of every OTHER section from that table (the split around the table
mirrors the source's `split_at_mut` / `split_first_mut`); otherwise the file
is returned unchanged. -/
def File.fetch_section_names (f : File) : File :=
  match f.section_index_for_section_names with
  | .Ok index =>
    match f.sections[index]? with
    | none => f
    | some section_names =>
      if section_names.type ≠ SectionType.StringTable then f
      else
        { f with
          sections :=
            (f.sections.take index).map (Section.fetchName section_names)
            ++ section_names
            :: ((f.sections.drop (index + 1)).map (Section.fetchName section_names)) }
  | _ => f

/-! The linker's ELF64 backend (`crates/linker/src/elf64/mod.rs`). -/

/-- A segment queued in the file builder (`elf64::Segment` of the linker
crate): mapped program flags plus the payload bytes. -/
structure Segment where
  flags : Nat
  data : List Nat
deriving DecidableEq, Inhabited

/-- The output file builder (`FileBuilder` of the linker crate). -/
structure FileBuilder where
  endianness : Endianness
  version : Version
  os_abi : OsAbi
  machine : Machine
  processor_flags : Nat
  segments : List Segment
deriving DecidableEq

/-- `FileBuilder::new` (the capacity hint does not affect the contents). -/
def FileBuilder.new (endianness : Endianness) (version : Version) (os_abi : OsAbi)
    (machine : Machine) (processor_flags : Nat) : FileBuilder :=
  { endianness, version, os_abi, machine, processor_flags, segments := [] }

/-- `FileBuilder::push_segment`: map the section flags
(`Writable`→`Write`, `Allocable`→`Read`, `Executable`→`Execute`) and append
a segment.  Any other set flag hits `unimplemented!`, i.e. a panic, which is
modelled as `none`; for a valid `SectionFlags` mask this is the case exactly
when a bit at or above `Merge = 0x10` is set, i.e. when `0x8 ≤ flags`. -/
def FileBuilder.push_segment (b : FileBuilder) (section_flags : Nat) (data : List Nat) :
    Option FileBuilder :=
  if section_flags < 8 then
    some { b with
           segments := b.segments ++
             [{ flags := section_flags % 2 * 2 + section_flags / 2 % 2 * 4 +
                  section_flags / 4 % 2 * 1,
                data := data }] }
  else
    none

/-- The `file_load_va` local of `FileBuilder::build_with_endianness`. -/
def fileLoadVa : Nat := 0x1000

/-- The 64-byte file header emitted by `FileBuilder::build_with_endianness`,
write by write and in source order.  The endianness byte itself is always
written with the little-endian strategy; `N::write_u16(1)` is the hardcoded
program header count; the section name index written is
`SectionIndex::Undefined`. -/
def FileBuilder.headerBytes (b : FileBuilder) : List Nat :=
  File.MAGIC
  ++ File.ELF64
  ++ Endianness.write .little b.endianness
  ++ Version.write b.endianness.codec b.version
  ++ OsAbi.write b.endianness.codec b.os_abi
  ++ List.replicate 8 0
  ++ FileType.write b.endianness.codec .ExecutableFile
  ++ Machine.write b.endianness.codec b.machine
  ++ List.replicate 4 0
  ++ writeBytes b.endianness.codec 8 (File.SIZE + Program.SIZE + fileLoadVa)
  ++ writeBytes b.endianness.codec 8 File.SIZE
  ++ writeBytes b.endianness.codec 8 0
  ++ writeBytes b.endianness.codec 4 b.processor_flags
  ++ writeBytes b.endianness.codec 2 File.SIZE
  ++ writeBytes b.endianness.codec 2 Program.SIZE
  ++ writeBytes b.endianness.codec 2 1
  ++ writeBytes b.endianness.codec 2 Section.SIZE
  ++ writeBytes b.endianness.codec 2 0
  ++ SectionIndex.write16 b.endianness.codec .Undefined

/-- The `Program` record built for one queued segment inside
`FileBuilder::build_with_endianness`: a `Load` segment at `file_load_va`
whose file and memory sizes are `File::SIZE + Program::SIZE + data.len()`. -/
def FileBuilder.programHeader (b : FileBuilder) (segment : Segment) : Program :=
  { type := .Load
    segment_flags := segment.flags
    offset := 0
    virtual_address := fileLoadVa
    physical_address := some fileLoadVa
    segment_size_in_file_image := File.SIZE + Program.SIZE + segment.data.length
    segment_size_in_memory := File.SIZE + Program.SIZE + segment.data.length
    alignment := some 0x1000
    data := { inner := segment.data
              type := DataType.ProgramData
              endianness := b.endianness.codec
              entity_size := none } }

/-- `FileBuilder::build_with_endianness`: the 64-byte file header, then one
program header per queued segment, then the segment payloads concatenated. -/
def FileBuilder.build_with_endianness (b : FileBuilder) : List Nat :=
  b.headerBytes
  ++ (b.segments.map fun segment => Program.write b.endianness.codec (b.programHeader segment)).flatten
  ++ (b.segments.map fun segment => segment.data).flatten

/-- `FileBuilder::build`: dispatch on the endianness (already captured by
`Endianness.codec` inside `build_with_endianness`). -/
def FileBuilder.build (b : FileBuilder) : List Nat :=
  b.build_with_endianness

/-! The thread pool (`crates/scheduler/src/lib.rs`). -/

/-- A worker of the pool; it owns one OS thread. -/
structure Worker where
  worker_id : Nat
deriving DecidableEq

/-- The thread pool: its workers, created once at construction (the channel
and executor carry no worker state). -/
structure ThreadPool where
  workers : List Worker
deriving DecidableEq

/-- `ThreadPool::new`: `pool_size = min(desired_pool_size,
available_parallelism)` and exactly `pool_size` workers are spawned eagerly
(`for nth in 0..pool_size`).  Both quantities are `NonZeroUsize` in the
source; `available_parallelism` is the host's reported parallelism. -/
def ThreadPool.new (desired_pool_size available_parallelism : Nat) : ThreadPool :=
  { workers := (List.range (min desired_pool_size available_parallelism)).map Worker.mk }

/-- `ThreadPool::execute` sends a future onto the channel; it takes the pool
by shared reference and leaves the worker vector untouched. -/
def ThreadPool.execute (pool : ThreadPool) : ThreadPool :=
  pool

/-! The linker driver (`crates/linker/src/linker.rs` and
`crates/linker/src/elf64/mod.rs`). -/

/-- Binary format of the target triple (from the external `target_lexicon`
collaborator; only `Elf` is meaningful to the driver). -/
inductive BinaryFormat
  | Elf
  | Coff
  | Macho
  | Wasm
  | Xcoff
  | Unknown
deriving DecidableEq

/-- The linker `Configuration`: target triple (collapsed to its binary
format, the only part the driver inspects), input files, output file. -/
structure Configuration where
  binary_format : BinaryFormat
  input_files : List String
  output_file : String
deriving DecidableEq

/-- Errors of the ELF64 backend (`elf64::Error` of the linker crate). -/
inductive Elf64Error
  | ThreadPool
  | ThreadPoolChannelClosed
  | ParsingFile (path : String)
  | ParsingSymbol (path : String)
  | NotRelocatable (path : String)
deriving DecidableEq

/-- Errors of the linker driver (`linker::Error`). -/
inductive LinkError
  | NoInputFile
  | UnsupportedBinaryFormat (format : BinaryFormat)
  | Elf64 (error : Elf64Error)
deriving DecidableEq

/-- Observable outcome of a call that may return, fail, or panic. -/
inductive LinkOutcome
  | ok
  | error (error : LinkError)
  | panicked
deriving DecidableEq

/-- Task submission behaviour of `elf64::link`: after creating the pool it
asserts `input_files.len() == 1` (panicking otherwise, "weld doesn't not
link more than one file for the moment"), then submits one asynchronous task
per input file to the pool. -/
inductive Elf64Run
  | panicked
  | submitted (tasks : List String)
deriving DecidableEq

/-- The control skeleton of `elf64::link`: the `assert_eq!` on the number of
input files, then the `for input_file_name in configuration.input_files`
loop, each iteration submitting one task for that file. -/
def elf64_link (configuration : Configuration) : Elf64Run :=
  if configuration.input_files.length = 1 then
    .submitted configuration.input_files
  else
    .panicked

/-- Runtime outcome of the ELF64 backend for a given configuration (its file
input/output effects are outside the model): it may complete, return one of
its own `Elf64Error`s, or panic. -/
inductive Elf64Outcome
  | ok
  | error (error : Elf64Error)
  | panicked
deriving DecidableEq

/-- `Linker::link`: fail with `NoInputFile` on an empty input list, then
dispatch on the triple's binary format — `Elf` runs the ELF64 backend (whose
runtime outcome is the parameter `elf64_outcome`, its errors wrapped in
`LinkError.Elf64`), anything else fails with `UnsupportedBinaryFormat`. -/
def Linker.link (configuration : Configuration) (elf64_outcome : Elf64Outcome) : LinkOutcome :=
  if configuration.input_files = [] then
    .error .NoInputFile
  else
    match configuration.binary_format with
    | .Elf =>
      match elf64_outcome with
      | .ok => .ok
      | .error e => .error (.Elf64 e)
      | .panicked => .panicked
    | _ => .error (.UnsupportedBinaryFormat configuration.binary_format)

/-! Concrete sample values, drawn from the repository's unit-test fixtures,
used to evaluate the theorems on closed inputs. -/

/-- A string-table section over the bytes `[0, 'a', 0]`, playing the role of
the section-name table (`.shstrtab`). -/
def sampleNameTable : Section :=
  { name := none
    name_offset := 0
    type := .StringTable
    flags := 0
    virtual_address := 0
    offset := 0
    segment_size_in_file_image := 3
    link := .Undefined
    information := 0
    alignment := none
    entity_size := none
    data := { inner := [0, 0x61, 0], type := .StringTable, endianness := .little,
              entity_size := none } }

/-- A program-data section whose name offset points at `'a'` in the name
table. -/
def sampleCodeSection : Section :=
  { name := none
    name_offset := 1
    type := .ProgramData
    flags := 6
    virtual_address := 0
    offset := 0
    segment_size_in_file_image := 0
    link := .Undefined
    information := 0
    alignment := none
    entity_size := none
    data := { inner := [], type := .ProgramData, endianness := .little,
              entity_size := none } }

/-- A parsed file whose section-name index points at `sampleNameTable`. -/
def sampleFile : File :=
  { endianness := .Little
    version := .Current
    os_abi := .SystemV
    type := .RelocatableFile
    machine := .X86_64
    processor_flags := 0
    entry_point := none
    programs := []
    sections := [sampleCodeSection, sampleNameTable]
    section_index_for_section_names := .Ok 1 }

/-- The 64-byte big-endian section header of the repository's
`test_section` fixture: name offset 1, type `StringTable`, empty flags,
virtual address 7, offset 0, size 5, link 3, information 0, alignment 512,
no entity size. -/
def sampleSectionBytes : List Nat :=
  [0, 0, 0, 1,
   0, 0, 0, 3,
   0, 0, 0, 0, 0, 0, 0, 0,
   0, 0, 0, 0, 0, 0, 0, 7,
   0, 0, 0, 0, 0, 0, 0, 0,
   0, 0, 0, 0, 0, 0, 0, 5,
   0, 0, 0, 3,
   0, 0, 0, 0,
   0, 0, 0, 0, 0, 0, 2, 0,
   0, 0, 0, 0, 0, 0, 0, 0]

/-- The decoded fields of `sampleSectionBytes`. -/
def sampleSectionHeader : SectionHeader :=
  { name_offset := 1
    type := .StringTable
    flags := 0
    virtual_address := 7
    offset := 0
    segment_size_in_file_image := 5
    link := .Ok 3
    information := 0
    alignment := some 512
    entity_size := 0 }

/-- The backing file of the `test_section` fixture. -/
def sampleBackingFile : List Nat := [0, 0x61, 0x62, 0x63, 0]

/-- The 56-byte big-endian program header of the repository's
`test_program` fixture: type `Load`, flags `Read | Execute`, offset 0,
virtual address 7, no physical address, file size 5, memory size 0,
alignment 512. -/
def sampleProgramBytes : List Nat :=
  [0, 0, 0, 1,
   0, 0, 0, 5,
   0, 0, 0, 0, 0, 0, 0, 0,
   0, 0, 0, 0, 0, 0, 0, 7,
   0, 0, 0, 0, 0, 0, 0, 0,
   0, 0, 0, 0, 0, 0, 0, 5,
   0, 0, 0, 0, 0, 0, 0, 0,
   0, 0, 0, 0, 0, 0, 2, 0]

/-- The decoded fields of `sampleProgramBytes`. -/
def sampleProgramHeader : ProgramHeader :=
  { type := .Load
    segment_flags := 5
    offset := 0
    virtual_address := 7
    physical_address := none
    segment_size_in_file_image := 5
    segment_size_in_memory := 0
    alignment := some 512 }

/-- A file builder with no queued segments. -/
def sampleBuilder : FileBuilder :=
  { endianness := .Little
    version := .Current
    os_abi := .SystemV
    machine := .X86_64
    processor_flags := 0
    segments := [] }

/-- A file builder with one queued two-byte segment. -/
def sampleBuilderOne : FileBuilder :=
  { endianness := .Little
    version := .Current
    os_abi := .SystemV
    machine := .X86_64
    processor_flags := 0
    segments := [{ flags := 5, data := [0x90, 0xc3] }] }

/-! Helper lemmas about the byte codec. -/

theorem leBytes_length (w n : Nat) : (leBytes w n).length = w := by
  induction w generalizing n with
  | zero => rfl
  | succ w ih => simp [leBytes, ih]

theorem writeBytes_length (e : Endian) (w n : Nat) : (writeBytes e w n).length = w := by
  cases e <;> simp [writeBytes, leBytes_length]

theorem leVal_leBytes (w n : Nat) (h : n < 256 ^ w) : leVal (leBytes w n) = n := by
  induction w generalizing n with
  | zero =>
    interval_cases n
    rfl
  | succ w ih =>
    have hdiv : n / 256 < 256 ^ w := by
      rw [Nat.div_lt_iff_lt_mul (by norm_num)]
      calc n < 256 ^ (w + 1) := h
        _ = 256 ^ w * 256 := by ring
    simp only [leBytes, leVal, ih (n / 256) hdiv]
    omega

theorem beVal_append (l : List Nat) (b : Nat) : beVal (l ++ [b]) = beVal l * 256 + b := by
  simp [beVal, List.foldl_append]

theorem beVal_reverse (l : List Nat) : beVal l.reverse = leVal l := by
  induction l with
  | nil => rfl
  | cons b t ih =>
    simp only [List.reverse_cons, beVal_append, ih, leVal]
    ring

theorem bytesVal_writeBytes (e : Endian) (w n : Nat) (h : n < 256 ^ w) :
    bytesVal e (writeBytes e w n) = n := by
  cases e with
  | little => exact leVal_leBytes w n h
  | big =>
    show beVal (leBytes w n).reverse = n
    rw [beVal_reverse, leVal_leBytes w n h]

theorem readBytes_writeBytes (e : Endian) (w n : Nat) (rest : List Nat) (h : n < 256 ^ w) :
    readBytes e w (writeBytes e w n ++ rest) = some (rest, n) := by
  have hlen : (writeBytes e w n).length = w := writeBytes_length e w n
  rw [readBytes, if_pos (by simp [hlen])]
  rw [List.drop_left' hlen, List.take_left' hlen, bytesVal_writeBytes e w n h]

theorem readBytes_writeBytes_nil (e : Endian) (w n : Nat) (h : n < 256 ^ w) :
    readBytes e w (writeBytes e w n) = some ([], n) := by
  have := readBytes_writeBytes e w n [] h
  rwa [List.append_nil] at this

/-! Round-trip lemmas for the derived `ReadWrite` enums. -/

theorem endianness_round_trip (e : Endian) (v : Endianness) :
    Endianness.read e (Endianness.write e v) = some ([], v) := by
  cases e <;> cases v <;> rfl

theorem version_round_trip (e : Endian) (v : Version) :
    Version.read e (Version.write e v) = some ([], v) := by
  cases e <;> cases v <;> rfl

theorem os_abi_round_trip (e : Endian) (v : OsAbi) :
    OsAbi.read e (OsAbi.write e v) = some ([], v) := by
  cases e <;> cases v <;> rfl

theorem file_type_round_trip (e : Endian) (v : FileType) :
    FileType.read e (FileType.write e v) = some ([], v) := by
  cases e <;> cases v <;> rfl

theorem machine_round_trip (e : Endian) (v : Machine) :
    Machine.read e (Machine.write e v) = some ([], v) := by
  cases e <;> cases v <;> rfl

theorem program_type_round_trip (e : Endian) (v : ProgramType) :
    ProgramType.read e (ProgramType.write e v) = some ([], v) := by
  cases e <;> cases v <;> rfl

theorem symbol_type_round_trip_good (e : Endian) (v : SymbolType)
    (h1 : v ≠ .HighEnvironmentSpecific) (h2 : v ≠ .LowProcessorSpecific) :
    SymbolType.read e (SymbolType.write e v) = some ([], v) := by
  cases e <;> cases v <;> first | rfl | exact absurd rfl h1 | exact absurd rfl h2

theorem symbol_binding_round_trip_good (e : Endian) (v : SymbolBinding)
    (h1 : v ≠ .HighEnvironmentSpecific) (h2 : v ≠ .LowProcessorSpecific) :
    SymbolBinding.read e (SymbolBinding.write e v) = some (SymbolBinding.write e v, v) := by
  cases e <;> cases v <;> first | rfl | exact absurd rfl h1 | exact absurd rfl h2

/-- C1: decode-after-encode on the enumerated discriminant types, as it
actually holds on the code.  For `Endianness`, `Version`, `OsAbi`,
`FileType`, `Machine` and `ProgramType` (the `ReadWrite`-derived enums) the
round trip is the identity with an empty remaining input, for both endian
strategies.  For `SymbolType` the byte is consumed but the hand-written
decoding table sends `0x0c` to `HighProcessorSpecific` and `0x0d` to
`LowEnvironmentSpecific`, so the round trip holds exactly for the variants
other than `HighEnvironmentSpecific` and `LowProcessorSpecific`; for
`SymbolBinding` additionally the shared binding/type byte is deliberately
NOT consumed (the remaining input is the original input, not empty). -/
theorem enum_decode_encode_round_trip (e : Endian) :
    (∀ v : Endianness, Endianness.read e (Endianness.write e v) = some ([], v)) ∧
    (∀ v : Version, Version.read e (Version.write e v) = some ([], v)) ∧
    (∀ v : OsAbi, OsAbi.read e (OsAbi.write e v) = some ([], v)) ∧
    (∀ v : FileType, FileType.read e (FileType.write e v) = some ([], v)) ∧
    (∀ v : Machine, Machine.read e (Machine.write e v) = some ([], v)) ∧
    (∀ v : ProgramType, ProgramType.read e (ProgramType.write e v) = some ([], v)) ∧
    (∀ v : SymbolType, v ≠ .HighEnvironmentSpecific → v ≠ .LowProcessorSpecific →
      SymbolType.read e (SymbolType.write e v) = some ([], v)) ∧
    (∀ v : SymbolBinding, v ≠ .HighEnvironmentSpecific → v ≠ .LowProcessorSpecific →
      SymbolBinding.read e (SymbolBinding.write e v) = some (SymbolBinding.write e v, v)) :=
  ⟨endianness_round_trip e, version_round_trip e, os_abi_round_trip e,
   file_type_round_trip e, machine_round_trip e, program_type_round_trip e,
   symbol_type_round_trip_good e, symbol_binding_round_trip_good e⟩

/-- C1, witness: the round trip evaluated at concrete variants, hypotheses
discharged at `SymbolType.Function`. -/
theorem enum_decode_encode_round_trip_witness :
    Machine.read .little (Machine.write .little .X86_64) = some ([], .X86_64) ∧
    SymbolType.read .big (SymbolType.write .big .Function) = some ([], .Function) :=
  ⟨(enum_decode_encode_round_trip .little).2.2.2.2.1 .X86_64,
   (enum_decode_encode_round_trip .big).2.2.2.2.2.2.1 .Function
     (by decide) (by decide)⟩

/-- C1, counterexample to the claim as stated: encoding
`SymbolType::HighEnvironmentSpecific` (discriminant `0x0c`) and decoding the
resulting byte yields `HighProcessorSpecific`, not the original variant, and
for `SymbolBinding::Local` the decode leaves the input unconsumed instead of
empty. -/
theorem enum_decode_encode_round_trip_counterexample :
    SymbolType.read .little (SymbolType.write .little .HighEnvironmentSpecific)
      = some ([], .HighProcessorSpecific) ∧
    SymbolType.HighProcessorSpecific ≠ .HighEnvironmentSpecific ∧
    SymbolBinding.read .little (SymbolBinding.write .little .Local)
      = some ([0x00], .Local) ∧
    ([0x00] : List Nat) ≠ [] := by
  refine ⟨rfl, by decide, rfl, by decide⟩

/-- C7: `Alignment` decode-after-encode is the identity for the zero
encoding of no alignment and for every power-of-two 64-bit value, and the
decode of any non-power-of-two non-zero 64-bit value fails with a parse
error, under both endian strategies. -/
theorem alignment_decode_encode (e : Endian) :
    (Alignment.read e (Alignment.write e none) = some ([], none)) ∧
    (∀ n k : Nat, n = 2 ^ k → n < 2 ^ 64 →
      Alignment.read e (Alignment.write e (some n)) = some ([], some n)) ∧
    (∀ n : Nat, n ≠ 0 → (∀ k : Nat, n ≠ 2 ^ k) → n < 2 ^ 64 →
      Alignment.read e (writeBytes e 8 n) = none) := by
  have h256 : (256 : Nat) ^ 8 = 2 ^ 64 := by norm_num
  refine ⟨?_, ?_, ?_⟩
  · show Alignment.read e (writeBytes e 8 0) = some ([], none)
    rw [Alignment.read, readBytes_writeBytes_nil e 8 0 (by positivity)]
    simp
  · intro n k hk hlt
    show Alignment.read e (writeBytes e 8 n) = some ([], some n)
    rw [Alignment.read, readBytes_writeBytes_nil e 8 n (h256 ▸ hlt)]
    have hne : n ≠ 0 := by subst hk; exact (Nat.pos_pow_of_pos k (by norm_num)).ne'
    have hklt : k < 64 := by
      by_contra hge
      have : (2 : Nat) ^ 64 ≤ 2 ^ k := Nat.pow_le_pow_right (by norm_num) (by omega)
      omega
    have hp : isPowerOfTwoU64 n = true := by
      simp only [isPowerOfTwoU64, List.any_eq_true, List.mem_range]
      exact ⟨k, hklt, by simp [hk]⟩
    simp [hne, hp]
  · intro n hne hnp hlt
    rw [Alignment.read, readBytes_writeBytes_nil e 8 n (h256 ▸ hlt)]
    have hp : isPowerOfTwoU64 n = false := by
      rw [Bool.eq_false_iff]
      intro hcon
      rw [isPowerOfTwoU64, List.any_eq_true] at hcon
      obtain ⟨k, _, hk⟩ := hcon
      exact hnp k (by simpa using hk)
    simp [hne, hp]

/-- C7, witness: the eight-byte zero decodes to no alignment, `512 = 2^9`
round-trips, and `513` fails, little-endian. -/
theorem alignment_decode_encode_witness :
    Alignment.read .little (Alignment.write .little none) = some ([], none) ∧
    Alignment.read .little (Alignment.write .little (some 512)) = some ([], some 512) ∧
    Alignment.read .little (writeBytes .little 8 513) = none :=
  ⟨(alignment_decode_encode .little).1,
   (alignment_decode_encode .little).2.1 512 9 (by norm_num) (by norm_num),
   (alignment_decode_encode .little).2.2 513 (by norm_num)
     (fun k => by
       intro hcon
       rcases Nat.lt_or_ge k 10 with hk | hk
       · interval_cases k <;> omega
       · have : (2 : Nat) ^ 10 ≤ 2 ^ k := Nat.pow_le_pow_right (by norm_num) hk
         omega)
     (by norm_num)⟩

/-- C2: task submission of the ELF64 backend, as it actually holds on the
code.  The backend submits one asynchronous task per input file — covering
every input file — only under its `assert_eq!` guard that the configuration
has EXACTLY one input file; for any other number of input files (including
two or more) the assertion panics and no task is submitted. -/
theorem elf64_link_tasks (configuration : Configuration) :
    (configuration.input_files.length = 1 →
      elf64_link configuration = .submitted configuration.input_files) ∧
    (configuration.input_files.length ≠ 1 →
      elf64_link configuration = .panicked) := by
  constructor <;> intro h <;> simp [elf64_link, h]

/-- C2, witness: a single-input configuration submits exactly its one input
file as a task. -/
theorem elf64_link_tasks_witness :
    elf64_link ⟨.Elf, ["input.o"], "a.out"⟩ = .submitted ["input.o"] :=
  (elf64_link_tasks ⟨.Elf, ["input.o"], "a.out"⟩).1 rfl

/-- C2, counterexample to the claim as stated: an ELF configuration with two
input files makes the backend panic on its assertion instead of submitting
one task per input file. -/
theorem elf64_link_tasks_counterexample :
    elf64_link ⟨.Elf, ["a.o", "b.o"], "a.out"⟩ = .panicked ∧
    Elf64Run.panicked ≠ .submitted ["a.o", "b.o"] :=
  ⟨rfl, by simp⟩

/-- C5: the linker driver returns `NoInputFile` if and only if the
configuration's input file list is empty, whatever the target's binary
format and whatever the ELF64 backend would do. -/
theorem link_no_input_file_iff (configuration : Configuration)
    (elf64_outcome : Elf64Outcome) :
    Linker.link configuration elf64_outcome = .error .NoInputFile ↔
      configuration.input_files = [] := by
  rw [Linker.link.eq_def]
  split
  · simp_all
  · rename_i hne
    cases h : configuration.binary_format <;> cases elf64_outcome <;> simp_all

/-- C4: as stated over every validated configuration the biconditional
fails; what holds is that the driver returns `UnsupportedBinaryFormat` if
and only if the binary format is not ELF AND the input list is non-empty
(the empty-input check runs first and wins). -/
theorem link_unsupported_binary_format_iff (configuration : Configuration)
    (elf64_outcome : Elf64Outcome) :
    Linker.link configuration elf64_outcome
        = .error (.UnsupportedBinaryFormat configuration.binary_format) ↔
      (configuration.binary_format ≠ .Elf ∧ configuration.input_files ≠ []) := by
  rw [Linker.link.eq_def]
  split
  · simp_all
  · rename_i hne
    cases h : configuration.binary_format <;> cases elf64_outcome <;> simp_all

/-- C4, counterexample to the claim as stated: a configuration with a
non-ELF binary format but an empty input list returns `NoInputFile`, not
`UnsupportedBinaryFormat`. -/
theorem link_unsupported_binary_format_counterexample :
    Linker.link ⟨.Wasm, [], "a.out"⟩ .ok = .error .NoInputFile ∧
    LinkOutcome.error .NoInputFile ≠ .error (.UnsupportedBinaryFormat .Wasm) :=
  ⟨rfl, by simp⟩

/-- C8: for a non-zero requested pool size and any host parallelism,
`ThreadPool::new` creates exactly `min(requested, available_parallelism)`
workers, and the worker list is untouched by `execute` (the only operation
of the pool), so the count never changes after construction. -/
theorem thread_pool_worker_count (desired_pool_size available_parallelism : Nat)
    (_h1 : 0 < desired_pool_size) (_h2 : 0 < available_parallelism) :
    (ThreadPool.new desired_pool_size available_parallelism).workers.length
        = min desired_pool_size available_parallelism ∧
    (∀ pool : ThreadPool, pool.execute.workers = pool.workers) :=
  ⟨by simp [ThreadPool.new], fun _ => rfl⟩

/-- C8, witness: requesting 4 workers on a host with parallelism 2 yields
exactly 2 workers. -/
theorem thread_pool_worker_count_witness :
    (ThreadPool.new 4 2).workers.length = min 4 2 :=
  (thread_pool_worker_count 4 2 (by decide) (by decide)).1

/-! Helper lemmas about `List.findIdx?` and `List.getD`, used to
characterise the string-table lookup. -/

theorem getD_drop_add (l : List Nat) (i m d : Nat) :
    (l.drop i).getD m d = l.getD (i + m) d := by
  simp [List.getD_eq_getElem?_getD, List.getElem?_drop]

theorem findIdxOpt_some_of (p : Nat → Bool) (l : List Nat) (j d : Nat)
    (hj : j < l.length) (hpj : p (l.getD j d) = true)
    (hlt : ∀ k, k < j → p (l.getD k d) = false) :
    l.findIdx? p = some j := by
  induction l generalizing j with
  | nil => simp at hj
  | cons x xs ih =>
    rw [List.findIdx?_cons]
    cases j with
    | zero =>
      rw [List.getD_cons_zero] at hpj
      simp [hpj]
    | succ j =>
      have hx : p x = false := by
        have := hlt 0 (Nat.succ_pos j)
        rwa [List.getD_cons_zero] at this
      rw [if_neg (by simp [hx]), List.findIdx?_succ]
      have hrec : xs.findIdx? p = some j := by
        refine ih j (by simpa using hj) (by rwa [List.getD_cons_succ] at hpj) ?_
        intro k hk
        have := hlt (k + 1) (by omega)
        rwa [List.getD_cons_succ] at this
      simp [hrec]

/-- C6: characterisation of `Data::string_at_offset`.  On a `StringTable`,
an offset `i` yields the bytes `[i, j)` where `j` is the smallest index at
or after `i` holding a zero byte: absence when `i` is at or past the end or
when no zero byte follows, the empty string when `i` sits exactly on a
terminator, and absence for every offset when the tag is not
`StringTable`. -/
theorem string_at_offset_spec (d : Data) (i : Nat) :
    (d.type ≠ DataType.StringTable → d.string_at_offset i = none) ∧
    (d.type = DataType.StringTable → d.inner.length ≤ i →
      d.string_at_offset i = none) ∧
    (d.type = DataType.StringTable → i < d.inner.length →
      (∀ k, i ≤ k → k < d.inner.length → d.inner.getD k 0 ≠ 0) →
      d.string_at_offset i = none) ∧
    (d.type = DataType.StringTable → ∀ j, i ≤ j → j < d.inner.length →
      d.inner.getD j 0 = 0 → (∀ k, i ≤ k → k < j → d.inner.getD k 0 ≠ 0) →
      d.string_at_offset i = some ((d.inner.drop i).take (j - i))) ∧
    (d.type = DataType.StringTable → i < d.inner.length → d.inner.getD i 0 = 0 →
      d.string_at_offset i = some []) := by
  have hempty : ∀ (ht : d.type = DataType.StringTable), i < d.inner.length →
      d.inner.getD i 0 = 0 →
      d.string_at_offset i = some ((d.inner.drop i).take (i - i)) →
      d.string_at_offset i = some [] := by
    intro _ _ _ h
    simpa using h
  refine ⟨?_, ?_, ?_, ?_, ?_⟩
  · intro ht
    rw [Data.string_at_offset, if_pos ht]
  · intro ht hlen
    rw [Data.string_at_offset, if_neg (by simp [ht]), if_pos hlen]
  · intro ht hi hall
    rw [Data.string_at_offset, if_neg (by simp [ht]), if_neg (by omega)]
    have hnone : (d.inner.drop i).findIdx? (fun c => c == 0) = none := by
      rw [List.findIdx?_eq_none_iff]
      intro x hx
      obtain ⟨m, hm, hgx⟩ := List.mem_iff_getElem.mp hx
      rw [List.getElem_drop] at hgx
      have hbound : i + m < d.inner.length := by
        rw [List.length_drop] at hm
        omega
      have := hall (i + m) (by omega) hbound
      rw [List.getD_eq_getElem?_getD, List.getElem?_eq_getElem hbound, hgx] at this
      simp only [Option.getD_some] at this
      simp [this]
    simp [hnone]
  · intro ht j hij hj hzero hbefore
    rw [Data.string_at_offset, if_neg (by simp [ht]), if_neg (by omega)]
    have hfind : (d.inner.drop i).findIdx? (fun c => c == 0) = some (j - i) := by
      apply findIdxOpt_some_of _ _ _ 0
      · rw [List.length_drop]
        omega
      · rw [getD_drop_add]
        have : i + (j - i) = j := by omega
        rw [this, hzero]
        rfl
      · intro k hk
        rw [getD_drop_add]
        have := hbefore (i + k) (by omega) (by omega)
        simpa using this
    simp [hfind]
  · intro ht hi hzero
    have h4 : d.string_at_offset i = some ((d.inner.drop i).take (i - i)) := by
      refine ?_
      have hbefore : ∀ k, i ≤ k → k < i → d.inner.getD k 0 ≠ 0 := by omega
      exact (by
        rw [Data.string_at_offset, if_neg (by simp [ht]), if_neg (by omega)]
        have hfind : (d.inner.drop i).findIdx? (fun c => c == 0) = some (i - i) := by
          apply findIdxOpt_some_of _ _ _ 0
          · rw [List.length_drop]; omega
          · rw [getD_drop_add]
            have : i + (i - i) = i := by omega
            rw [this, hzero]
            rfl
          · omega
        simp [hfind])
    exact hempty ht hi hzero h4

/-- C6, witness: the scenario of the spec evaluated concretely — the table
`[0, a, b, c, 0, d, e, 0]` at offset 1 yields `abc` (bytes `[1, 4)`), at
offset 4 the empty string, and at offset 8 absence; a `ProgramData` tag
yields absence at every probed offset. -/
theorem string_at_offset_spec_witness :
    (Data.mk [0, 0x61, 0x62, 0x63, 0, 0x64, 0x65, 0] .StringTable .little
        none).string_at_offset 1
      = some ((([0, 0x61, 0x62, 0x63, 0, 0x64, 0x65, 0] : List Nat).drop 1).take (4 - 1)) ∧
    (Data.mk [0, 0x61, 0x62, 0x63, 0, 0x64, 0x65, 0] .StringTable .little
        none).string_at_offset 4 = some [] ∧
    (Data.mk [0, 0x61, 0x62, 0x63, 0, 0x64, 0x65, 0] .StringTable .little
        none).string_at_offset 8 = none ∧
    (Data.mk [0, 0x61, 0x62, 0x63, 0, 0x64, 0x65, 0] .ProgramData .little
        none).string_at_offset 3 = none :=
  ⟨(string_at_offset_spec _ 1).2.2.2.1 rfl 4 (by decide) (by decide) (by decide)
     (by decide),
   (string_at_offset_spec _ 4).2.2.2.2 rfl (by decide) (by decide),
   (string_at_offset_spec _ 8).2.1 rfl (by decide),
   (string_at_offset_spec _ 3).1 (by decide)⟩

/-! The frame property of `File::fetch_section_names`. -/

theorem fetch_section_names_eq_of_valid (f : File) (index : Nat) (section_names : Section)
    (hsin : f.section_index_for_section_names = SectionIndex.Ok index)
    (hget : f.sections[index]? = some section_names)
    (htype : section_names.type = SectionType.StringTable) :
    f.fetch_section_names =
      { f with sections :=
          (f.sections.take index).map (Section.fetchName section_names)
          ++ section_names
          :: ((f.sections.drop (index + 1)).map (Section.fetchName section_names)) } := by
  rw [File.fetch_section_names.eq_def, hsin]
  simp only [hget]
  rw [if_neg (by simp [htype])]

/-- C9: the frame property of `fetch_section_names`.  When the
section-name index is a plain in-range index of a `StringTable` section,
only the `sections` list changes; the name-table section itself is left in
place with all of its fields and string data unchanged, and every other
section is changed only in its `name` field, resolved from the name table
at that section's `name_offset`.  When the index is out of range, not a
`StringTable` section, or one of the reserved index names, the file is
returned entirely unchanged. -/
theorem fetch_section_names_frame (f : File) :
    (∀ index section_names,
      f.section_index_for_section_names = SectionIndex.Ok index →
      f.sections[index]? = some section_names →
      section_names.type = SectionType.StringTable →
      f.fetch_section_names = { f with sections := f.fetch_section_names.sections } ∧
      f.fetch_section_names.sections[index]? = some section_names ∧
      (∀ i, i ≠ index →
        f.fetch_section_names.sections[i]? =
          (f.sections[i]?).map (Section.fetchName section_names))) ∧
    (∀ index section_names,
      f.section_index_for_section_names = SectionIndex.Ok index →
      f.sections[index]? = some section_names →
      section_names.type ≠ SectionType.StringTable →
      f.fetch_section_names = f) ∧
    (∀ index,
      f.section_index_for_section_names = SectionIndex.Ok index →
      f.sections[index]? = none →
      f.fetch_section_names = f) ∧
    ((∀ index, f.section_index_for_section_names ≠ SectionIndex.Ok index) →
      f.fetch_section_names = f) := by
  refine ⟨?_, ?_, ?_, ?_⟩
  · intro index section_names hsin hget htype
    have hidx : index < f.sections.length := by
      rcases Nat.lt_or_ge index f.sections.length with h | h
      · exact h
      · rw [List.getElem?_eq_none h] at hget
        cases hget
    have hdef := fetch_section_names_eq_of_valid f index section_names hsin hget htype
    have hlenA : ((f.sections.take index).map (Section.fetchName section_names)).length
        = index := by
      rw [List.length_map, List.length_take]
      omega
    refine ⟨?_, ?_, ?_⟩
    · rw [hdef]
    · rw [hdef]
      show (_ ++ _ :: _)[index]? = _
      rw [List.getElem?_append_right (le_of_eq hlenA), hlenA, Nat.sub_self,
        List.getElem?_cons_zero]
    · intro i hi
      rw [hdef]
      show (_ ++ _ :: _)[i]? = _
      rcases Nat.lt_or_ge i index with hlt | hge
      · rw [List.getElem?_append_left (by omega), List.getElem?_map,
          List.getElem?_take_of_lt hlt]
      · have hgt : index < i := by omega
        rw [List.getElem?_append_right (by omega), hlenA]
        have hsub : i - index = (i - index - 1) + 1 := by omega
        rw [hsub, List.getElem?_cons_succ, List.getElem?_map, List.getElem?_drop]
        have : index + 1 + (i - index - 1) = i := by omega
        rw [this]
  · intro index section_names hsin hget htype
    rw [File.fetch_section_names.eq_def, hsin]
    simp only [hget]
    rw [if_pos htype]
  · intro index hsin hget
    rw [File.fetch_section_names.eq_def, hsin]
    simp only [hget]
  · intro hno
    cases hsin : f.section_index_for_section_names with
    | Ok index => exact absurd hsin (hno index)
    | _ => rw [File.fetch_section_names.eq_def, hsin]

/-- C9, witness: on `sampleFile` (name table at index 1) the name table is
left unchanged and the other section gets its name resolved at its
`name_offset`. -/
theorem fetch_section_names_frame_witness :
    sampleFile.fetch_section_names.sections[1]? = some sampleNameTable ∧
    sampleFile.fetch_section_names.sections[0]? =
      (sampleFile.sections[0]?).map (Section.fetchName sampleNameTable) ∧
    sampleFile.fetch_section_names = { sampleFile with
      sections := sampleFile.fetch_section_names.sections } := by
  have h := (fetch_section_names_frame sampleFile).1 1 sampleNameTable rfl rfl rfl
  exact ⟨h.2.1, h.2.2 0 (by decide), h.1⟩

/-- C10: totality precondition of `Section::read` and `Program::read`.
Whenever the header fields decode, the read returns a value exactly when
the decoded `offset + segment_size_in_file_image` does not exceed the
backing file's length — the resulting data view being precisely the bytes
`file[offset .. offset + size]` — and panics (out-of-bounds slice, not a
parse error) whenever the sum exceeds it. -/
theorem section_program_read_data_bounds (e : Endian) (input file : List Nat) :
    (∀ rest h, Section.readFields e input = some (rest, h) →
      (h.offset + h.segment_size_in_file_image ≤ file.length →
        Section.read e input file
          = .ok rest (Section.ofHeader e h
              ((file.drop h.offset).take h.segment_size_in_file_image))) ∧
      (file.length < h.offset + h.segment_size_in_file_image →
        Section.read e input file = .panicked)) ∧
    (∀ rest h, Program.readFields e input = some (rest, h) →
      (h.offset + h.segment_size_in_file_image ≤ file.length →
        Program.read e input file
          = .ok rest (Program.ofHeader e h
              ((file.drop h.offset).take h.segment_size_in_file_image))) ∧
      (file.length < h.offset + h.segment_size_in_file_image →
        Program.read e input file = .panicked)) ∧
    (∀ h d, (Section.ofHeader e h d).data.inner = d) ∧
    (∀ h d, (Program.ofHeader e h d).data.inner = d) := by
  refine ⟨?_, ?_, fun _ _ => rfl, fun _ _ => rfl⟩
  · intro rest h hfields
    constructor <;> intro hbound
    · rw [Section.read, hfields]
      simp [hbound]
    · rw [Section.read, hfields]
      have hnot : ¬(h.offset + h.segment_size_in_file_image ≤ file.length) := by omega
      simp [hnot]
  · intro rest h hfields
    constructor <;> intro hbound
    · rw [Program.read, hfields]
      simp [hbound]
    · rw [Program.read, hfields]
      have hnot : ¬(h.offset + h.segment_size_in_file_image ≤ file.length) := by omega
      simp [hnot]

/-- C10, witness: the repository's `test_section` header over its 5-byte
backing file decodes in bounds and its data view is exactly the backing
bytes; the `test_program` header over an empty backing file (its size field
says 5) panics. -/
theorem section_program_read_data_bounds_witness :
    Section.read .big sampleSectionBytes sampleBackingFile
      = .ok [] (Section.ofHeader .big sampleSectionHeader
          ((sampleBackingFile.drop 0).take 5)) ∧
    Program.read .big sampleProgramBytes []
      = .panicked :=
  ⟨((section_program_read_data_bounds .big sampleSectionBytes sampleBackingFile).1
      [] sampleSectionHeader (by decide)).1 (by decide),
   ((section_program_read_data_bounds .big sampleProgramBytes []).2.1
      [] sampleProgramHeader (by decide)).2 (by decide)⟩

/-! Layout of the file builder's output. -/

theorem Program.write_length (e : Endian) (p : Program) :
    (Program.write e p).length = Program.SIZE := by
  simp [Program.write, ProgramType.write, Alignment.write, writeBytes_length, Program.SIZE]

theorem FileBuilder.headerBytes_length (b : FileBuilder) :
    b.headerBytes.length = File.SIZE := by
  simp [FileBuilder.headerBytes, File.MAGIC, File.ELF64, Endianness.write, Version.write,
    OsAbi.write, FileType.write, Machine.write, SectionIndex.write16, writeBytes_length,
    File.SIZE]

theorem flatten_uniform_length (ls : List (List Nat)) (m : Nat)
    (h : ∀ x ∈ ls, x.length = m) : ls.flatten.length = m * ls.length := by
  induction ls with
  | nil => simp
  | cons x t ih =>
    rw [List.flatten_cons, List.length_append, h x (List.mem_cons_self x _),
      ih fun y hy => h y (List.mem_cons_of_mem _ hy), List.length_cons]
    ring

theorem flatten_drop_uniform (ls : List (List Nat)) (m i : Nat)
    (h : ∀ x ∈ ls, x.length = m) (hi : i ≤ ls.length) :
    ls.flatten.drop (m * i) = (ls.drop i).flatten := by
  induction i generalizing ls with
  | zero => simp
  | succ i ih =>
    cases ls with
    | nil => simp at hi
    | cons x t =>
      have hx : x.length = m := h x (List.mem_cons_self x _)
      rw [List.flatten_cons, List.drop_succ_cons,
        show m * (i + 1) = m + m * i from by ring, ← List.drop_drop,
        List.drop_left' hx]
      exact ih t (fun y hy => h y (List.mem_cons_of_mem _ hy)) (by simpa using hi)

/-- C3: layout of `FileBuilder::build`, as it actually holds on the code.
The output is the 64-byte file header, then one 56-byte program header per
appended segment, then the payloads; but the program-header-count field of
the emitted file header (bytes 56..58) is hardcoded to `1` whatever the
number of appended segments. -/
theorem file_builder_build_layout (b : FileBuilder) :
    b.build.length = File.SIZE + Program.SIZE * b.segments.length
        + (b.segments.map fun segment => segment.data.length).sum ∧
    (∀ i, i < b.segments.length →
      (b.build.drop (File.SIZE + Program.SIZE * i)).take Program.SIZE
        = Program.write b.endianness.codec (b.programHeader (b.segments.getD i default))) ∧
    (b.build.drop 56).take 2 = writeBytes b.endianness.codec 2 1 := by
  have hphLen : ∀ x ∈ b.segments.map fun segment =>
      Program.write b.endianness.codec (b.programHeader segment), x.length = Program.SIZE := by
    intro x hx
    obtain ⟨s, _, rfl⟩ := List.mem_map.mp hx
    exact Program.write_length _ _
  refine ⟨?_, ?_, ?_⟩
  · rw [FileBuilder.build, FileBuilder.build_with_endianness]
    rw [List.length_append, List.length_append, FileBuilder.headerBytes_length,
      flatten_uniform_length _ Program.SIZE hphLen, List.length_map,
      List.length_flatten, List.map_map]
    have hsum : (List.map (List.length ∘ fun segment => segment.data) b.segments).sum
        = (List.map (fun segment => segment.data.length) b.segments).sum := rfl
    omega
  · intro i hi
    rw [FileBuilder.build, FileBuilder.build_with_endianness, List.append_assoc,
      ← List.drop_drop, List.drop_left' (FileBuilder.headerBytes_length b)]
    have hmapLen :
        (b.segments.map fun segment =>
          Program.write b.endianness.codec (b.programHeader segment)).length
          = b.segments.length := List.length_map _ _
    rw [List.drop_append_of_le_length
      (by rw [flatten_uniform_length _ Program.SIZE hphLen, hmapLen]
          exact Nat.mul_le_mul_left _ (le_of_lt hi))]
    rw [flatten_drop_uniform _ Program.SIZE i hphLen (by omega)]
    rw [List.drop_eq_getElem_cons (by omega), List.flatten_cons, List.append_assoc]
    rw [List.getElem_map]
    rw [List.take_left' (Program.write_length _ _)]
    congr 1
    rw [List.getD_eq_getElem?_getD, List.getElem?_eq_getElem hi]
    rfl
  · rw [FileBuilder.build, FileBuilder.build_with_endianness, List.append_assoc]
    rw [List.drop_append_of_le_length (by rw [FileBuilder.headerBytes_length]; decide)]
    have hsplit : b.headerBytes
        = (File.MAGIC ++ File.ELF64
            ++ Endianness.write .little b.endianness
            ++ Version.write b.endianness.codec b.version
            ++ OsAbi.write b.endianness.codec b.os_abi
            ++ List.replicate 8 0
            ++ FileType.write b.endianness.codec .ExecutableFile
            ++ Machine.write b.endianness.codec b.machine
            ++ List.replicate 4 0
            ++ writeBytes b.endianness.codec 8 (File.SIZE + Program.SIZE + fileLoadVa)
            ++ writeBytes b.endianness.codec 8 File.SIZE
            ++ writeBytes b.endianness.codec 8 0
            ++ writeBytes b.endianness.codec 4 b.processor_flags
            ++ writeBytes b.endianness.codec 2 File.SIZE
            ++ writeBytes b.endianness.codec 2 Program.SIZE)
          ++ (writeBytes b.endianness.codec 2 1
            ++ (writeBytes b.endianness.codec 2 Section.SIZE
            ++ writeBytes b.endianness.codec 2 0
            ++ SectionIndex.write16 b.endianness.codec .Undefined)) := by
      simp [FileBuilder.headerBytes, List.append_assoc]
    have hdrop : b.headerBytes.drop 56
        = writeBytes b.endianness.codec 2 1
          ++ (writeBytes b.endianness.codec 2 Section.SIZE
            ++ writeBytes b.endianness.codec 2 0
            ++ SectionIndex.write16 b.endianness.codec .Undefined) := by
      rw [hsplit]
      exact List.drop_left' (by
        simp [File.MAGIC, File.ELF64, Endianness.write, Version.write, OsAbi.write,
          FileType.write, Machine.write, writeBytes_length])
    rw [hdrop, List.append_assoc]
    exact List.take_left' (writeBytes_length _ 2 _)

/-- C3, witness: on a builder holding one two-byte segment, bytes 64..120
of the output are exactly the 56-byte program header of that segment. -/
theorem file_builder_build_layout_witness :
    (sampleBuilderOne.build.drop (File.SIZE + Program.SIZE * 0)).take Program.SIZE
      = Program.write Endian.little
          (sampleBuilderOne.programHeader { flags := 5, data := [0x90, 0xc3] }) :=
  (file_builder_build_layout sampleBuilderOne).2.1 0 (by decide)

/-- C3, counterexample to the claim as stated: a builder with zero appended
segments still emits `1` in the program-header-count field (bytes 56..58 of
the header), so the field does not equal the number of appended segments. -/
theorem file_builder_build_layout_counterexample :
    (sampleBuilder.build.drop 56).take 2 = [1, 0] ∧
    bytesVal .little [1, 0] = 1 ∧
    sampleBuilder.segments.length = 0 ∧
    (1 : Nat) ≠ 0 :=
  ⟨by decide, by decide, by decide, by decide⟩

end Weld
